import Mathlib

/-!
Verification development for the IP-Risk news analyzer (`src/app.py`).

Modelling conventions:
* Python floats are embedded as exact rationals (`ℚ`): every number reaching
  the scoring arithmetic is a small decimal and the spec reasons in real
  arithmetic.
* The external NLP collaborators (the spaCy document analysis and the
  sentiment classifier) are opaque capabilities per the spec; they are
  embedded as function parameters `nlp : String → NlpDoc` and
  `sa : String → List (String × ℚ)` (label, score pairs).
* The network I/O inside `fetch_gdelt_data` is embedded by a `FetchOutcome`
  parameter enumerating the outcome classes of the `requests.get` /
  `raise_for_status` / `.json()` sequence; the function body is the
  `try/except` dispatch of `app.py` lines 43-59.
* The pandas expression of `app.py` line 91 is embedded over `List Row`:
  `df.groupby('Company')['Risk Score'].idxmax()` keeps, per company, the
  first row attaining the maximal score (`idxmax` returns the first index of
  the maximum), and `sort_values(by="Risk Score", ascending=False)` is a
  descending sort, embedded as a stable insertion sort. Group keys are
  enumerated in first-occurrence order rather than pandas' alphabetical
  order; both orders are re-sorted by score, so the difference touches only
  the relative order of rows with tied scores, which the spec leaves
  unspecified.
-/

/-- Checks that `p` occurs as a leading block of the second list (character
lists compared element by element). -/
def leadsWith : List Char → List Char → Bool
  | [], _ => true
  | _ :: _, [] => false
  | p :: ps, c :: cs => p == c && leadsWith ps cs

/-- Python's substring test `pat in s`, on character lists. -/
def containsSeq (pat : List Char) : List Char → Bool
  | [] => pat.isEmpty
  | c :: cs => leadsWith pat (c :: cs) || containsSeq pat cs

/-- Python's substring test `pat in s`, on strings. -/
def containsStr (s pat : String) : Bool := containsSeq pat.data s.data

/-- Python's `s.lower()` (ASCII case folding, which covers the configured
keywords and the texts the claims evaluate). -/
def lowerStr (s : String) : String := String.mk (s.data.map Char.toLower)

/-- Python's slice `s[:n]` on strings. -/
def takeStr (s : String) (n : Nat) : String := String.mk (s.data.take n)

/-- Python's `" ".join(l)`. -/
def joinSpace : List String → String
  | [] => ""
  | [s] => s
  | s :: rest => s ++ " " ++ joinSpace rest

/-- `KEYWORDS` from `app.py` line 10. -/
def KEYWORDS : List String :=
  ["infringement", "injunction", "uspto", "opposition", "invalidated", "lawsuit", "litigation"]

/-- `RISK_WEIGHTS['sentiment']` from `app.py` line 11. -/
def riskWeightSentiment : ℚ := 6/10

/-- `RISK_WEIGHTS['keywords']` from `app.py` line 11. -/
def riskWeightKeywords : ℚ := 4/10

/-- Result of the opaque spaCy call `nlp(text)`: the named entities as
(text, label) pairs and the sentence texts. -/
structure NlpDoc where
  ents : List (String × String)
  sents : List String

/-- One GDELT article as consumed by the pipeline; the string fields are read
via `article.get(..., '')` and `article['url']` on line 88. -/
structure Article where
  url : String
  title : String
  seendate : String
  socialimage : String
deriving DecidableEq

/-- The sentence predicate of `app.py` line 64:
`any(keyword in sent.text.lower() for keyword in KEYWORDS)`. -/
def isRisky (sent : String) : Bool :=
  KEYWORDS.any (fun k => containsStr (lowerStr sent) k)

/-- The risky-sentence list of `app.py` line 64 for `article_text` under the
oracle `nlp`. -/
def riskySentences (nlp : String → NlpDoc) (text : String) : List String :=
  ((nlp text).sents).filter isRisky

/-- `list(set([ent.text for ent in doc.ents if ent.label_ == "ORG"]))`
(`app.py` line 63); Python's `set` deduplicates in unspecified order,
embedded as `List.dedup`. -/
def orgCompanies (nlp : String → NlpDoc) (text : String) : List String :=
  ((((nlp text).ents).filter (fun e => decide (e.2 = "ORG"))).map (fun e => e.1)).dedup

/-- `next((item['score'] for item in sentiment_result if item['label'] == 'Negative'), 0)`
(`app.py` line 69): the score of the first `Negative`-labelled item,
defaulting to `0`. -/
def negativeScore (sentimentResult : List (String × ℚ)) : ℚ :=
  ((sentimentResult.find? (fun p => decide (p.1 = "Negative"))).map (fun p => p.2)).getD 0

/-- `analyze_article` (`app.py` lines 61-72). Returns
`(companies, full_risk_text, risk_score)`; the first two components are
`none` exactly on the `(None, None, 0)` early return when no risky sentence
is found. -/
def analyze_article (nlp : String → NlpDoc) (sa : String → List (String × ℚ))
    (text : String) : Option (List String) × Option String × ℚ :=
  let risky := riskySentences nlp text
  if risky.isEmpty then (none, none, 0)
  else
    let fullRiskText := joinSpace risky
    let negScore := negativeScore (sa fullRiskText)
    let normalizedKeywordScore := min ((risky.length : ℚ) / 5) 1
    (some (orgCompanies nlp text), some fullRiskText,
      riskWeightSentiment * negScore + riskWeightKeywords * normalizedKeywordScore)

/-- Outcome classes of the network interaction inside `fetch_gdelt_data`
(`app.py` lines 43-59): a parsed JSON body (whose `articles` key may be
absent, hence the `Option`), an HTTP status error from `raise_for_status`,
a JSON decoding failure, or another `RequestException` such as a timeout. -/
inductive FetchOutcome where
  | success (articles : Option (List Article))
  | httpError (e : String)
  | jsonDecodeError
  | requestError (e : String)
deriving DecidableEq

/-- The `st.error` text of `app.py` line 50 (`e` is the rendered exception). -/
def httpErrorMsg (e : String) : String :=
  "🚨 An HTTP error occurred: " ++ e ++ ". The API might be temporarily down."

/-- The `st.error` text of `app.py` line 54. -/
def jsonDecodeErrorMsg : String :=
  "🚨 Failed to decode JSON. The GDELT API returned an empty or invalid response. Please try again later."

/-- The `st.error` text of `app.py` line 58 (`e` is the rendered exception). -/
def requestErrorMsg (e : String) : String :=
  "🚨 A network connection error occurred: " ++ e

/-- `fetch_gdelt_data` (`app.py` lines 43-59) as a function of the outcome of
its single network interaction: the returned article list together with the
diagnostic reported through `st.error`, if any. The embedding is a total
function performing one case split, matching the code's single
`requests.get` call with no retry and no uncaught exception. -/
def fetch_gdelt_data : FetchOutcome → List Article × Option String
  | .success arts => (arts.getD [], none)
  | .httpError e => ([], some (httpErrorMsg e))
  | .jsonDecodeError => ([], some jsonDecodeErrorMsg)
  | .requestError e => ([], some (requestErrorMsg e))

/-- Whether a `FetchOutcome` is one of the three failure classes. -/
def FetchOutcome.isFailure : FetchOutcome → Bool
  | .success _ => false
  | _ => true

/-- One element of the `results` list built on `app.py` line 88: the dict
`{'Company': company, 'Risk Score': ..., 'Key Mentions': ..., 'Source': ..., 'Date': ...}`. -/
structure Row where
  company : String
  score : ℚ
  mentions : String
  source : String
  date : String
deriving DecidableEq

/-- Descending order on `Risk Score`, the sort key of
`sort_values(by="Risk Score", ascending=False)` on `app.py` line 91. -/
def byDescScore (a b : Row) : Prop := b.score ≤ a.score

instance : DecidableRel byDescScore :=
  fun a b => inferInstanceAs (Decidable (b.score ≤ a.score))

instance : IsTotal Row byDescScore := ⟨fun a b => le_total b.score a.score⟩

instance : IsTrans Row byDescScore := ⟨fun _ _ _ h1 h2 => le_trans h2 h1⟩

/-- One step of the running maximum behind `idxmax`: a later row replaces the
current best only when its score is strictly greater, so the first occurrence
of the maximum is kept. -/
def updateBest (b r : Row) : Row := if b.score < r.score then r else b

/-- The row `idxmax` selects among `r :: rs`: the first row attaining the
maximal score. -/
def bestRow (r : Row) (rs : List Row) : Row := rs.foldl updateBest r

/-- The rows of a batch naming company `c` (the `groupby('Company')` group). -/
def rowsFor (rows : List Row) (c : String) : List Row :=
  rows.filter (fun r => decide (r.company = c))

/-- `df.loc[df.groupby('Company')['Risk Score'].idxmax()]` restricted to the
group of company `c` (`none` when the batch has no row for `c`). -/
def pickBest (rows : List Row) (c : String) : Option Row :=
  match rowsFor rows c with
  | [] => none
  | r :: rs => some (bestRow r rs)

/-- The aggregation of `app.py` line 91: per-company selection of the first
maximal-score row, then a descending sort by score. -/
def aggregate (rows : List Row) : List Row :=
  List.insertionSort byDescScore
    (((rows.map Row.company).dedup).filterMap (pickBest rows))

/-- The entity noise filter of `app.py` line 88:
`len(company) > 3 and " " in company and "LLC" not in company`. -/
def companyFilter (c : String) : Bool :=
  decide (3 < c.length) && containsStr c " " && !(containsStr c "LLC")

/-- `content := article.get('seendate', '') + " " + article.get('title', '') + " " + article.get('socialimage', '')`
(`app.py` line 88). -/
def contentOf (a : Article) : String :=
  a.seendate ++ " " ++ a.title ++ " " ++ a.socialimage

/-- The per-article part of the comprehension on `app.py` line 88: the rows
contributed by one article. The walrus condition `content and len(content) > 100`
keeps articles whose content is truthy (non-empty) and longer than 100
characters; `analysis_result[2] > 0.1` is the fixed score threshold applied
before aggregation. -/
def processArticle (nlp : String → NlpDoc) (sa : String → List (String × ℚ))
    (a : Article) : List Row :=
  let content := contentOf a
  if content ≠ "" ∧ 100 < content.length then
    let res := analyze_article nlp sa content
    if 1/10 < res.2.2 then
      ((res.1.getD []).filter companyFilter).map (fun company =>
        { company := company, score := res.2.2, mentions := res.2.1.getD "",
          source := a.url, date := takeStr a.seendate 8 })
    else []
  else []

/-- The analysis pipeline behind the button (`app.py` lines 87-93), applied to
an already-fetched article list: build the `results` rows, then either the
aggregated leaderboard or the empty frame when `results` is empty. -/
def analyzeNews (nlp : String → NlpDoc) (sa : String → List (String × ℚ))
    (articles : List Article) : List Row :=
  let results := articles.flatMap (processArticle nlp sa)
  if results.isEmpty then [] else aggregate results

/-- Modelled from the spec: the keyword-density scoring policy of §4.2
belongs to a repository variant whose source file is not under `src/` (only
the blended-policy `app.py` is). Per the spec it counts the distinct tracked
risk keywords occurring in the lowercased title; the keyword list is
`KEYWORDS` of `app.py` line 10. -/
def matchedKeywordCount (title : String) : Nat :=
  (KEYWORDS.filter (fun k => containsStr (lowerStr title) k)).length

/-- Modelled from the spec: the keyword-density score of §4.2,
`count(matched risk keywords in lowercased title) / total keyword count`,
clamped to 1.0. -/
def keyword_density_score (title : String) : ℚ :=
  min ((matchedKeywordCount title : ℚ) / (KEYWORDS.length : ℚ)) 1

/-! Concrete fixtures used to instantiate the universally quantified theorems:
oracle functions standing for the external NLP collaborators, sample articles,
and sample assessment rows. -/

/-- The title of spec scenario 1 (keyword-density policy). -/
def scenarioTitle : String := "Company X sued for patent infringement, faces injunction"

/-- Oracle producing two risky sentences (spec scenario 2). -/
def nlpTwoRisky : String → NlpDoc := fun _ =>
  { ents := [("Example Industries", "ORG")],
    sents := ["The lawsuit seeks damages.", "An injunction was requested."] }

/-- Sentiment oracle with negativity 0.8 (spec scenario 2). -/
def saNegPointEight : String → List (String × ℚ) := fun _ =>
  [("Neutral", 1/10), ("Negative", 4/5), ("Positive", 1/10)]

/-- Oracle producing five risky sentences (saturates the keyword component). -/
def nlpFiveRisky : String → NlpDoc := fun _ =>
  { ents := [],
    sents := ["lawsuit a", "lawsuit b", "lawsuit c", "lawsuit d", "lawsuit e"] }

/-- A sentiment oracle reporting a negativity of 2, outside the unit interval. -/
def saNegTwo : String → List (String × ℚ) := fun _ => [("Negative", 2)]

/-- A sentiment oracle whose result carries no `Negative` label. -/
def saNoNegative : String → List (String × ℚ) := fun _ =>
  [("Neutral", 7/10), ("Positive", 3/10)]

/-- Oracle whose single sentence contains no risk keyword. -/
def nlpNoRisky : String → NlpDoc := fun _ =>
  { ents := [("Calm Company", "ORG")],
    sents := ["Nothing notable happened today."] }

/-- Oracle with one organization and one risky sentence. -/
def nlpOrgRisky : String → NlpDoc := fun _ =>
  { ents := [("Acme Corporation", "ORG")],
    sents := ["Acme Corporation faces a lawsuit over patents."] }

/-- Sentiment oracle with negativity 0.9. -/
def saStrongNegative : String → List (String × ℚ) := fun _ => [("Negative", 9/10)]

/-- A sample article whose content passes the 100-character gate. -/
def riskyArticle : Article :=
  { url := "http://example.com/a",
    title := "Acme Corporation faces a lawsuit over patents in a long-running dispute about industrial widget designs",
    seendate := "20250101120000",
    socialimage := "" }

/-- The row the pipeline produces from `riskyArticle` under `nlpOrgRisky` and
`saStrongNegative`: score `0.6 * 0.9 + 0.4 * min(1/5, 1) = 31/50`. -/
def riskyRow : Row :=
  { company := "Acme Corporation", score := 31/50,
    mentions := "Acme Corporation faces a lawsuit over patents.",
    source := "http://example.com/a", date := "20250101" }

/-- Spec scenario 3: an "Acme Corp" assessment with score 0.3. -/
def rowAcme03 : Row :=
  { company := "Acme Corp", score := 3/10, mentions := "Acme Corp sued over patents.",
    source := "http://example.com/b", date := "20250102" }

/-- Spec scenario 3: an "Acme Corp" assessment with score 0.7. -/
def rowAcme07 : Row :=
  { company := "Acme Corp", score := 7/10, mentions := "Acme Corp faces injunction.",
    source := "http://example.com/c", date := "20250103" }

/-- Spec scenario 3 batch: both assessments name "Acme Corp". -/
def acmeRows : List Row := [rowAcme03, rowAcme07]

/-- Tie fixture: first of two assessments with equal scores. -/
def rowTieFirst : Row :=
  { company := "Beta Systems", score := 1/2, mentions := "first mention",
    source := "http://example.com/d", date := "20250104" }

/-- Tie fixture: second of two assessments with equal scores. -/
def rowTieSecond : Row :=
  { company := "Beta Systems", score := 1/2, mentions := "second mention",
    source := "http://example.com/e", date := "20250105" }

/-- Batch with two equal-scoring assessments for the same entity. -/
def tieRows : List Row := [rowTieFirst, rowTieSecond]

/-! Helper lemmas about the running-maximum selection. -/

lemma updateBest_cases (b r : Row) : updateBest b r = b ∨ updateBest b r = r := by
  unfold updateBest
  split
  · exact Or.inr rfl
  · exact Or.inl rfl

lemma le_updateBest_left (b r : Row) : b.score ≤ (updateBest b r).score := by
  unfold updateBest
  split
  · exact le_of_lt (by assumption)
  · exact le_refl _

lemma le_updateBest_right (b r : Row) : r.score ≤ (updateBest b r).score := by
  unfold updateBest
  split
  · exact le_refl _
  · exact le_of_not_lt (by assumption)

lemma bestRow_cons (r x : Row) (rs : List Row) :
    bestRow r (x :: rs) = bestRow (updateBest r x) rs := rfl

lemma bestRow_mem (r : Row) (rs : List Row) : bestRow r rs ∈ r :: rs := by
  induction rs generalizing r with
  | nil => simp [bestRow]
  | cons x t ih =>
    rw [bestRow_cons]
    have hm := ih (updateBest r x)
    rcases List.mem_cons.mp hm with h1 | h1
    · rcases updateBest_cases r x with h | h
      · exact List.mem_cons.mpr (Or.inl (h1.trans h))
      · exact List.mem_cons.mpr (Or.inr (List.mem_cons.mpr (Or.inl (h1.trans h))))
    · simp [h1]

lemma score_le_bestRow (r : Row) (rs : List Row) :
    ∀ x ∈ r :: rs, x.score ≤ (bestRow r rs).score := by
  induction rs generalizing r with
  | nil =>
    intro x hx
    rw [List.mem_singleton] at hx
    subst hx
    exact le_refl _
  | cons y t ih =>
    intro x hx
    rw [bestRow_cons]
    have hub := ih (updateBest r y)
    rcases List.mem_cons.mp hx with rfl | hx'
    · exact le_trans (le_updateBest_left x y) (hub _ (List.mem_cons_self _ _))
    · rcases List.mem_cons.mp hx' with rfl | hx2
      · exact le_trans (le_updateBest_right r x) (hub _ (List.mem_cons_self _ _))
      · exact hub x (List.mem_cons_of_mem _ hx2)

lemma bestRow_first (rs : List Row) :
    ∀ r : Row, ∃ l₁ l₂, r :: rs = l₁ ++ bestRow r rs :: l₂ ∧
      ∀ x ∈ l₁, x.score < (bestRow r rs).score := by
  induction rs with
  | nil => exact fun r => ⟨[], [], rfl, by simp⟩
  | cons y t ih =>
    intro r
    rw [bestRow_cons]
    by_cases h : r.score < y.score
    · have hu : updateBest r y = y := if_pos h
      rw [hu]
      obtain ⟨l₁, l₂, heq, hlt⟩ := ih y
      refine ⟨r :: l₁, l₂, ?_, ?_⟩
      · rw [List.cons_append, ← heq]
      · intro x hx
        rcases List.mem_cons.mp hx with rfl | hx'
        · exact lt_of_lt_of_le h (score_le_bestRow y t y (List.mem_cons_self _ _))
        · exact hlt x hx'
    · have hu : updateBest r y = r := if_neg h
      rw [hu]
      obtain ⟨l₁, l₂, heq, hlt⟩ := ih r
      cases l₁ with
      | nil =>
        simp only [List.nil_append] at heq
        have h1 : bestRow r t = r := ((List.cons.injEq _ _ _ _).mp heq).1.symm
        have h2 : t = l₂ := ((List.cons.injEq _ _ _ _).mp heq).2
        refine ⟨[], y :: l₂, ?_, by simp⟩
        simp [h1, ← h2]
      | cons a l₁' =>
        simp only [List.cons_append] at heq
        have ha : a = r := ((List.cons.injEq _ _ _ _).mp heq).1.symm
        have ht : t = l₁' ++ bestRow r t :: l₂ := ((List.cons.injEq _ _ _ _).mp heq).2
        refine ⟨r :: y :: l₁', l₂, ?_, ?_⟩
        · simp [List.cons_append, ← ht]
        · intro x hx
          rcases List.mem_cons.mp hx with rfl | hx'
          · exact ha ▸ hlt a (List.mem_cons_self _ _)
          · rcases List.mem_cons.mp hx' with rfl | hx2
            · exact lt_of_le_of_lt (le_of_not_lt h) (ha ▸ hlt a (List.mem_cons_self _ _))
            · exact hlt x (List.mem_cons_of_mem _ hx2)

/-! Helper lemmas about the per-company selection and the aggregation. -/

lemma mem_rowsFor {x : Row} {rows : List Row} {c : String} :
    x ∈ rowsFor rows c ↔ x ∈ rows ∧ x.company = c := by
  simp [rowsFor, List.mem_filter]

lemma pickBest_spec {rows : List Row} {c : String} {e : Row} (h : pickBest rows c = some e) :
    e ∈ rowsFor rows c ∧ (∀ x ∈ rowsFor rows c, x.score ≤ e.score) ∧
      ∃ l₁ l₂, rowsFor rows c = l₁ ++ e :: l₂ ∧ ∀ x ∈ l₁, x.score < e.score := by
  cases hr : rowsFor rows c with
  | nil => simp [pickBest, hr] at h
  | cons r rs =>
    simp only [pickBest, hr, Option.some.injEq] at h
    subst h
    exact ⟨bestRow_mem r rs, score_le_bestRow r rs, bestRow_first rs r⟩

lemma pickBest_company {rows : List Row} {c : String} {e : Row}
    (h : pickBest rows c = some e) : e.company = c :=
  (mem_rowsFor.mp (pickBest_spec h).1).2

lemma pickBest_isSome {rows : List Row} {c : String} (h : c ∈ rows.map Row.company) :
    ∃ e, pickBest rows c = some e := by
  obtain ⟨r, hr, hc⟩ := List.mem_map.mp h
  cases hrf : rowsFor rows c with
  | nil =>
    exfalso
    simp only [rowsFor] at hrf
    have hx := List.filter_eq_nil_iff.mp hrf r hr
    simp [hc] at hx
  | cons a as => exact ⟨bestRow a as, by simp [pickBest, hrf]⟩

lemma map_company_filterMap_pickBest (rows : List Row) (keys : List String)
    (h : ∀ c ∈ keys, c ∈ rows.map Row.company) :
    (keys.filterMap (pickBest rows)).map Row.company = keys := by
  induction keys with
  | nil => simp
  | cons c ks ih =>
    obtain ⟨e, he⟩ := pickBest_isSome (h c (List.mem_cons_self _ _))
    rw [List.filterMap_cons_some he, List.map_cons, pickBest_company he,
      ih (fun x hx => h x (List.mem_cons_of_mem _ hx))]

lemma mem_aggregate {rows : List Row} {e : Row} (h : e ∈ aggregate rows) :
    e ∈ rows ∧ (∀ x ∈ rows, x.company = e.company → x.score ≤ e.score) ∧
      ∃ l₁ l₂, rowsFor rows e.company = l₁ ++ e :: l₂ ∧ ∀ x ∈ l₁, x.score < e.score := by
  simp only [aggregate, List.mem_insertionSort] at h
  obtain ⟨c, hc, he⟩ := List.mem_filterMap.mp h
  have hcc : e.company = c := pickBest_company he
  subst hcc
  obtain ⟨hmem, hmax, hfirst⟩ := pickBest_spec he
  exact ⟨(mem_rowsFor.mp hmem).1,
    fun x hx hxc => hmax x (mem_rowsFor.mpr ⟨hx, hxc⟩), hfirst⟩

lemma exists_company_mem_aggregate {rows : List Row} {r : Row} (h : r ∈ rows) :
    ∃ e ∈ aggregate rows, e.company = r.company := by
  have hc : r.company ∈ rows.map Row.company := List.mem_map.mpr ⟨r, h, rfl⟩
  obtain ⟨e, he⟩ := pickBest_isSome hc
  refine ⟨e, ?_, pickBest_company he⟩
  simp only [aggregate, List.mem_insertionSort]
  exact List.mem_filterMap.mpr ⟨r.company, List.mem_dedup.mpr hc, he⟩

lemma aggregate_company_nodup (rows : List Row) :
    ((aggregate rows).map Row.company).Nodup := by
  have hmap : ((((rows.map Row.company).dedup).filterMap (pickBest rows)).map Row.company)
      = (rows.map Row.company).dedup :=
    map_company_filterMap_pickBest rows _ (fun c hc => List.mem_dedup.mp hc)
  have hperm :=
    (List.perm_insertionSort byDescScore
      (((rows.map Row.company).dedup).filterMap (pickBest rows))).map Row.company
  rw [hmap] at hperm
  exact hperm.symm.nodup (List.nodup_dedup _)

lemma aggregate_sorted (rows : List Row) : (aggregate rows).Sorted byDescScore :=
  List.sorted_insertionSort byDescScore _

lemma rowsFor_cons_self {r : Row} {t : List Row} (h : r.company ∉ t.map Row.company) :
    rowsFor (r :: t) r.company = [r] := by
  have h0 : rowsFor t r.company = [] := by
    simp only [rowsFor]
    rw [List.filter_eq_nil_iff]
    intro x hx
    simp only [decide_eq_true_eq]
    exact fun hc => h (List.mem_map.mpr ⟨x, hx, hc⟩)
  simp only [rowsFor] at h0 ⊢
  rw [List.filter_cons_of_pos (by simp), h0]

lemma rowsFor_cons_ne {r : Row} {t : List Row} {c : String} (h : r.company ≠ c) :
    rowsFor (r :: t) c = rowsFor t c := by
  simp only [rowsFor]
  rw [List.filter_cons_of_neg (by simpa using h)]

lemma filterMap_pickBest_self (l : List Row) (h : (l.map Row.company).Nodup) :
    (l.map Row.company).filterMap (pickBest l) = l := by
  induction l with
  | nil => simp
  | cons r t ih =>
    rw [List.map_cons] at h ⊢
    have hnotin : r.company ∉ t.map Row.company := (List.nodup_cons.mp h).1
    have hnd : (t.map Row.company).Nodup := (List.nodup_cons.mp h).2
    have h1 : pickBest (r :: t) r.company = some r := by
      simp [pickBest, rowsFor_cons_self hnotin, bestRow]
    rw [List.filterMap_cons_some h1]
    have h2 : (t.map Row.company).filterMap (pickBest (r :: t))
        = (t.map Row.company).filterMap (pickBest t) := by
      refine List.filterMap_congr (fun c hc => ?_)
      have hne : r.company ≠ c := fun he => hnotin (he ▸ hc)
      simp only [pickBest, rowsFor_cons_ne hne]
    rw [h2, ih hnd]

/-! Helper lemmas about `analyze_article` and the pipeline. -/

lemma analyze_article_of_risky {nlp : String → NlpDoc} {sa : String → List (String × ℚ)}
    {text : String} (h : riskySentences nlp text ≠ []) :
    analyze_article nlp sa text =
      (some (orgCompanies nlp text), some (joinSpace (riskySentences nlp text)),
        riskWeightSentiment * negativeScore (sa (joinSpace (riskySentences nlp text))) +
          riskWeightKeywords * min (((riskySentences nlp text).length : ℚ) / 5) 1) := by
  have hne : ¬((riskySentences nlp text).isEmpty = true) := by
    simpa [List.isEmpty_iff] using h
  simp only [analyze_article, if_neg hne]

lemma analyze_article_of_no_risky {nlp : String → NlpDoc} {sa : String → List (String × ℚ)}
    {text : String} (h : riskySentences nlp text = []) :
    analyze_article nlp sa text = (none, none, 0) := by
  simp [analyze_article, h]

lemma mem_processArticle_score {nlp : String → NlpDoc} {sa : String → List (String × ℚ)}
    {a : Article} {e : Row} (h : e ∈ processArticle nlp sa a) : 1/10 < e.score := by
  by_cases hP : contentOf a ≠ "" ∧ 100 < (contentOf a).length
  · by_cases hQ : (1 : ℚ)/10 < (analyze_article nlp sa (contentOf a)).2.2
    · simp only [processArticle] at h
      rw [if_pos hP, if_pos hQ] at h
      obtain ⟨c, hc, rfl⟩ := List.mem_map.mp h
      exact hQ
    · simp only [processArticle] at h
      rw [if_pos hP, if_neg hQ] at h
      exact absurd h (List.not_mem_nil _)
  · simp only [processArticle] at h
    rw [if_neg hP] at h
    exact absurd h (List.not_mem_nil _)

lemma mem_analyzeNews {nlp : String → NlpDoc} {sa : String → List (String × ℚ)}
    {articles : List Article} {e : Row} (h : e ∈ analyzeNews nlp sa articles) :
    e ∈ articles.flatMap (processArticle nlp sa) := by
  by_cases hE : (articles.flatMap (processArticle nlp sa)).isEmpty = true
  · simp only [analyzeNews] at h
    rw [if_pos hE] at h
    exact absurd h (List.not_mem_nil _)
  · simp only [analyzeNews] at h
    rw [if_neg hE] at h
    exact (mem_aggregate h).1

lemma processArticle_of_no_risky {nlp : String → NlpDoc} {sa : String → List (String × ℚ)}
    {a : Article} (h : riskySentences nlp (contentOf a) = []) :
    processArticle nlp sa a = [] := by
  by_cases hP : contentOf a ≠ "" ∧ 100 < (contentOf a).length
  · simp only [processArticle]
    rw [if_pos hP, analyze_article_of_no_risky h]
    rw [if_neg (by norm_num)]
  · simp only [processArticle]
    rw [if_neg hP]

/-! Helper lemmas distinguishing the three fetch diagnostics. -/

lemma append3_getQ (A B C : List Char) (i : Nat) (h : i < A.length) :
    (A ++ B ++ C)[i]? = A[i]? := by
  have h1 : i < (A ++ B).length := by
    rw [List.length_append]
    omega
  rw [List.getElem?_append_left h1, List.getElem?_append_left h]

lemma httpErrorMsg_ne_jsonDecodeErrorMsg (e : String) :
    httpErrorMsg e ≠ jsonDecodeErrorMsg := by
  intro heq
  have h1 : ((httpErrorMsg e).data)[2]? = ("🚨 An HTTP error occurred: ".data)[2]? :=
    append3_getQ _ _ _ 2 (by decide)
  rw [heq] at h1
  exact absurd h1 (by decide)

lemma httpErrorMsg_ne_requestErrorMsg (e e' : String) :
    httpErrorMsg e ≠ requestErrorMsg e' := by
  intro heq
  have h1 : ((httpErrorMsg e).data)[3]? = ("🚨 An HTTP error occurred: ".data)[3]? :=
    append3_getQ _ _ _ 3 (by decide)
  have h2 : ((requestErrorMsg e').data)[3]?
      = ("🚨 A network connection error occurred: ".data)[3]? :=
    List.getElem?_append_left (by decide)
  rw [heq, h2] at h1
  exact absurd h1 (by decide)

lemma jsonDecodeErrorMsg_ne_requestErrorMsg (e' : String) :
    jsonDecodeErrorMsg ≠ requestErrorMsg e' := by
  intro heq
  have h2 : ((requestErrorMsg e').data)[2]?
      = ("🚨 A network connection error occurred: ".data)[2]? :=
    List.getElem?_append_left (by decide)
  rw [← heq] at h2
  exact absurd h2 (by decide)

/-! Evaluation lemmas for the concrete fixtures. -/

lemma keyword_density_scenario_eval : keyword_density_score scenarioTitle = 2/7 := by
  have h : matchedKeywordCount scenarioTitle = 2 := by decide
  have hlen : KEYWORDS.length = 7 := by decide
  simp only [keyword_density_score, h, hlen]
  norm_num [min_def]

lemma aggregate_acmeRows : aggregate acmeRows = [rowAcme07] := by
  have h1 : aggregate acmeRows = [bestRow rowAcme03 [rowAcme07]] := rfl
  have h2 : bestRow rowAcme03 [rowAcme07] = rowAcme07 := by
    show updateBest rowAcme03 rowAcme07 = rowAcme07
    unfold updateBest
    rw [if_pos (show rowAcme03.score < rowAcme07.score by norm_num [rowAcme03, rowAcme07])]
  rw [h1, h2]

lemma aggregate_tieRows : aggregate tieRows = [rowTieFirst] := by
  have h1 : aggregate tieRows = [bestRow rowTieFirst [rowTieSecond]] := rfl
  have h2 : bestRow rowTieFirst [rowTieSecond] = rowTieFirst := by
    show updateBest rowTieFirst rowTieSecond = rowTieFirst
    unfold updateBest
    rw [if_neg (show ¬(rowTieFirst.score < rowTieSecond.score) by
      norm_num [rowTieFirst, rowTieSecond])]
  rw [h1, h2]

lemma analyze_article_riskyArticle :
    analyze_article nlpOrgRisky saStrongNegative (contentOf riskyArticle) =
      (some ["Acme Corporation"],
        some "Acme Corporation faces a lawsuit over patents.", 31/50) := by
  have hrisky : riskySentences nlpOrgRisky (contentOf riskyArticle)
      = ["Acme Corporation faces a lawsuit over patents."] := by decide
  rw [analyze_article_of_risky (by rw [hrisky]; exact List.cons_ne_nil _ _), hrisky]
  rw [show orgCompanies nlpOrgRisky (contentOf riskyArticle) = ["Acme Corporation"] from by decide]
  rw [show joinSpace ["Acme Corporation faces a lawsuit over patents."]
      = "Acme Corporation faces a lawsuit over patents." from rfl]
  rw [show negativeScore (saStrongNegative "Acme Corporation faces a lawsuit over patents.")
      = 9/10 from rfl]
  simp only [List.length_cons, List.length_nil]
  norm_num [riskWeightSentiment, riskWeightKeywords, min_def]

lemma processArticle_riskyArticle :
    processArticle nlpOrgRisky saStrongNegative riskyArticle = [riskyRow] := by
  simp only [processArticle]
  rw [if_pos (show contentOf riskyArticle ≠ "" ∧ 100 < (contentOf riskyArticle).length
    from by decide)]
  rw [analyze_article_riskyArticle]
  rw [if_pos (by norm_num)]
  rw [show ((some ["Acme Corporation"] : Option (List String)).getD []).filter companyFilter
      = ["Acme Corporation"] from by decide]
  have hdate : takeStr "20250101120000" 8 = "20250101" := by decide
  simp [riskyRow, riskyArticle, hdate]

lemma analyzeNews_riskyArticle :
    analyzeNews nlpOrgRisky saStrongNegative [riskyArticle] = [riskyRow] := by
  simp only [analyzeNews, List.flatMap_cons, List.flatMap_nil, List.append_nil,
    processArticle_riskyArticle]
  rw [if_neg (by simp)]
  rfl

/-! The claim theorems. -/

/-- C1: for every document whose risky-sentence list is non-empty, the blended
risk score equals `0.6 * sentiment_negativity + 0.4 * min(risky_count / 5, 1)`,
where the sentiment negativity is the classifier's `Negative` score for the
concatenated risky sentences. -/
theorem blended_score_formula (nlp : String → NlpDoc) (sa : String → List (String × ℚ))
    (text : String) (h : riskySentences nlp text ≠ []) :
    (analyze_article nlp sa text).2.2 =
      6/10 * negativeScore (sa (joinSpace (riskySentences nlp text))) +
        4/10 * min (((riskySentences nlp text).length : ℚ) / 5) 1 := by
  rw [analyze_article_of_risky h]
  rfl

/-- Witness for C1 at spec scenario 2: two risky sentences and sentiment
negativity 0.8 give the score 16/25 = 0.64 exactly. -/
theorem blended_score_formula_witness :
    riskySentences nlpTwoRisky "t" ≠ [] ∧
      (analyze_article nlpTwoRisky saNegPointEight "t").2.2 = 16/25 := by
  have h : riskySentences nlpTwoRisky "t" ≠ [] := by decide
  refine ⟨h, ?_⟩
  rw [blended_score_formula nlpTwoRisky saNegPointEight "t" h]
  rw [show riskySentences nlpTwoRisky "t"
      = ["The lawsuit seeks damages.", "An injunction was requested."] from by decide]
  rw [show negativeScore (saNegPointEight
      (joinSpace ["The lawsuit seeks damages.", "An injunction was requested."]))
      = 4/5 from rfl]
  simp only [List.length_cons, List.length_nil]
  norm_num [min_def]

/-- C3 counterexample: with a sentiment negativity of 2 (outside the unit
interval) and five risky sentences, the blended score is 8/5 > 1 — the code
applies no clamping, so the score is not always within [0, 1]. -/
theorem blended_score_not_clamped :
    1 < (analyze_article nlpFiveRisky saNegTwo "t").2.2 := by
  have h : riskySentences nlpFiveRisky "t" ≠ [] := by decide
  have hsc := @analyze_article_of_risky nlpFiveRisky saNegTwo "t" h
  rw [show (analyze_article nlpFiveRisky saNegTwo "t").2.2
      = riskWeightSentiment * negativeScore (saNegTwo (joinSpace (riskySentences nlpFiveRisky "t")))
        + riskWeightKeywords * min (((riskySentences nlpFiveRisky "t").length : ℚ) / 5) 1
      from by rw [hsc]]
  rw [show negativeScore (saNegTwo (joinSpace (riskySentences nlpFiveRisky "t"))) = 2 from rfl]
  rw [show riskySentences nlpFiveRisky "t"
      = ["lawsuit a", "lawsuit b", "lawsuit c", "lawsuit d", "lawsuit e"] from by decide]
  simp only [List.length_cons, List.length_nil]
  norm_num [riskWeightSentiment, riskWeightKeywords, min_def]

/-- C3 (amended): the blended score lies in [0, 1] whenever the classifier's
negativity score lies in [0, 1]; the code performs no clamping, so inputs
outside the unit interval can push the score outside it. -/
theorem blended_score_in_unit (nlp : String → NlpDoc) (sa : String → List (String × ℚ))
    (text : String)
    (h0 : 0 ≤ negativeScore (sa (joinSpace (riskySentences nlp text))))
    (h1 : negativeScore (sa (joinSpace (riskySentences nlp text))) ≤ 1) :
    0 ≤ (analyze_article nlp sa text).2.2 ∧ (analyze_article nlp sa text).2.2 ≤ 1 := by
  by_cases h : riskySentences nlp text = []
  · rw [analyze_article_of_no_risky h]
    norm_num
  · rw [analyze_article_of_risky h]
    have hk0 : (0 : ℚ) ≤ min (((riskySentences nlp text).length : ℚ) / 5) 1 :=
      le_min (by positivity) (by norm_num)
    have hk1 : min (((riskySentences nlp text).length : ℚ) / 5) 1 ≤ 1 := min_le_right _ _
    constructor
    · have ha := mul_nonneg (show (0:ℚ) ≤ riskWeightSentiment by
        norm_num [riskWeightSentiment]) h0
      have hb := mul_nonneg (show (0:ℚ) ≤ riskWeightKeywords by
        norm_num [riskWeightKeywords]) hk0
      show 0 ≤ riskWeightSentiment * negativeScore (sa (joinSpace (riskySentences nlp text)))
        + riskWeightKeywords * min (((riskySentences nlp text).length : ℚ) / 5) 1
      linarith
    · have ha := mul_le_mul_of_nonneg_left h1 (show (0:ℚ) ≤ riskWeightSentiment by
        norm_num [riskWeightSentiment])
      have hb := mul_le_mul_of_nonneg_left hk1 (show (0:ℚ) ≤ riskWeightKeywords by
        norm_num [riskWeightKeywords])
      have hsum : riskWeightSentiment * 1 + riskWeightKeywords * 1 = 1 := by
        norm_num [riskWeightSentiment, riskWeightKeywords]
      show riskWeightSentiment * negativeScore (sa (joinSpace (riskySentences nlp text)))
        + riskWeightKeywords * min (((riskySentences nlp text).length : ℚ) / 5) 1 ≤ 1
      linarith

/-- Witness for the amended C3: with negativity 0.8 the score 16/25 lies in
the unit interval. -/
theorem blended_score_in_unit_witness :
    (0 ≤ negativeScore (saNegPointEight (joinSpace (riskySentences nlpTwoRisky "t"))) ∧
      negativeScore (saNegPointEight (joinSpace (riskySentences nlpTwoRisky "t"))) ≤ 1) ∧
      0 ≤ (analyze_article nlpTwoRisky saNegPointEight "t").2.2 ∧
        (analyze_article nlpTwoRisky saNegPointEight "t").2.2 ≤ 1 := by
  have hv : negativeScore (saNegPointEight (joinSpace (riskySentences nlpTwoRisky "t")))
      = 4/5 := rfl
  have h0 : 0 ≤ negativeScore (saNegPointEight (joinSpace (riskySentences nlpTwoRisky "t"))) := by
    rw [hv]
    norm_num
  have h1 : negativeScore (saNegPointEight (joinSpace (riskySentences nlpTwoRisky "t"))) ≤ 1 := by
    rw [hv]
    norm_num
  exact ⟨⟨h0, h1⟩, blended_score_in_unit nlpTwoRisky saNegPointEight "t" h0 h1⟩

/-- C4 counterexample: the scenario title matches only the keywords
`infringement` and `injunction` — 2 of the 7 tracked keywords (`sued` is not
in `KEYWORDS`) — so the keyword-density score is 2/7, not 0.5. -/
theorem keyword_density_scenario_refuted :
    keyword_density_score scenarioTitle = 2/7 ∧ (2/7 : ℚ) ≠ 1/2 := by
  constructor
  · exact keyword_density_scenario_eval
  · norm_num

/-- C4 (amended): the keyword-density score is
`min(matched_count / 7, 1)` over the 7 tracked keywords of `app.py` line 10,
and the scenario title matches 2 of them, scoring 2/7. -/
theorem keyword_density_score_spec :
    (∀ title : String,
        keyword_density_score title = min ((matchedKeywordCount title : ℚ) / 7) 1) ∧
      matchedKeywordCount scenarioTitle = 2 ∧
      keyword_density_score scenarioTitle = 2/7 := by
  refine ⟨?_, by decide, keyword_density_scenario_eval⟩
  intro title
  simp only [keyword_density_score]
  norm_num [KEYWORDS]

/-- C5: a document with zero risky sentences contributes no row to the results
batch and leaves the leaderboard unchanged — it is excluded rather than
scored. -/
theorem zero_risky_excluded (nlp : String → NlpDoc) (sa : String → List (String × ℚ))
    (a : Article) (rest : List Article)
    (h : riskySentences nlp (contentOf a) = []) :
    processArticle nlp sa a = [] ∧
      analyzeNews nlp sa (a :: rest) = analyzeNews nlp sa rest := by
  have hp := @processArticle_of_no_risky nlp sa a h
  refine ⟨hp, ?_⟩
  simp only [analyzeNews, List.flatMap_cons, hp, List.nil_append]

/-- Witness for C5: an article whose sentence has no risk keyword produces no
row and does not change the leaderboard. -/
theorem zero_risky_excluded_witness :
    riskySentences nlpNoRisky (contentOf riskyArticle) = [] ∧
      processArticle nlpNoRisky saStrongNegative riskyArticle = [] ∧
      analyzeNews nlpNoRisky saStrongNegative [riskyArticle]
        = analyzeNews nlpNoRisky saStrongNegative [] := by
  have h : riskySentences nlpNoRisky (contentOf riskyArticle) = [] := by decide
  exact ⟨h, (zero_risky_excluded nlpNoRisky saStrongNegative riskyArticle [] h).1,
    (zero_risky_excluded nlpNoRisky saStrongNegative riskyArticle [] h).2⟩

/-- C6: every failing fetch outcome yields an empty article list plus a
reported diagnostic, and the three failure classes carry pairwise distinct
diagnostics for all exception renderings. -/
theorem fetch_failure_diagnostics :
    (∀ o : FetchOutcome, o.isFailure = true →
        (fetch_gdelt_data o).1 = [] ∧ (fetch_gdelt_data o).2.isSome = true) ∧
      ∀ e eR : String, httpErrorMsg e ≠ jsonDecodeErrorMsg ∧
        httpErrorMsg e ≠ requestErrorMsg eR ∧ jsonDecodeErrorMsg ≠ requestErrorMsg eR := by
  constructor
  · intro o ho
    cases o with
    | success arts => simp [FetchOutcome.isFailure] at ho
    | httpError e => exact ⟨rfl, rfl⟩
    | jsonDecodeError => exact ⟨rfl, rfl⟩
    | requestError e => exact ⟨rfl, rfl⟩
  · intro e eR
    exact ⟨httpErrorMsg_ne_jsonDecodeErrorMsg e, httpErrorMsg_ne_requestErrorMsg e eR,
      jsonDecodeErrorMsg_ne_requestErrorMsg eR⟩

/-- Witness for C6 at an HTTP 503 failure. -/
theorem fetch_failure_diagnostics_witness :
    (FetchOutcome.httpError "503 Server Error").isFailure = true ∧
      (fetch_gdelt_data (FetchOutcome.httpError "503 Server Error")).1 = [] ∧
      (fetch_gdelt_data (FetchOutcome.httpError "503 Server Error")).2.isSome = true :=
  ⟨rfl, fetch_failure_diagnostics.1 (FetchOutcome.httpError "503 Server Error") rfl⟩

/-- C2: the aggregated leaderboard has pairwise distinct entities, covers
every entity of the input batch, each entry is itself an input assessment
whose score is maximal among the assessments naming its entity (so its
evidence, source url and date come from that maximum-scoring assessment), and
the entries are sorted descending by score. -/
theorem aggregate_leaderboard_spec (rows : List Row) :
    ((aggregate rows).map Row.company).Nodup ∧
      (∀ r ∈ rows, ∃ e ∈ aggregate rows, e.company = r.company) ∧
      (∀ e ∈ aggregate rows, e ∈ rows ∧
        ∀ x ∈ rows, x.company = e.company → x.score ≤ e.score) ∧
      (aggregate rows).Sorted byDescScore :=
  ⟨aggregate_company_nodup rows,
    fun _ hr => exists_company_mem_aggregate hr,
    fun _ he => ⟨(mem_aggregate he).1, (mem_aggregate he).2.1⟩,
    aggregate_sorted rows⟩

/-- Witness for C2 at spec scenario 3: the two "Acme Corp" assessments with
scores 0.3 and 0.7 aggregate to the single 0.7 entry, which dominates the
batch. -/
theorem aggregate_leaderboard_spec_witness :
    rowAcme07 ∈ aggregate acmeRows ∧ rowAcme07 ∈ acmeRows ∧
      (∀ x ∈ acmeRows, x.company = rowAcme07.company → x.score ≤ rowAcme07.score) ∧
      rowAcme07.score = 7/10 := by
  have hm : rowAcme07 ∈ aggregate acmeRows := by
    rw [aggregate_acmeRows]
    exact List.mem_singleton.mpr rfl
  have h := (aggregate_leaderboard_spec acmeRows).2.2.1 rowAcme07 hm
  exact ⟨hm, h.1, h.2, rfl⟩

/-- C7: a leaderboard entry is the first-encountered maximum-scoring
assessment among those naming its entity: every strictly earlier assessment
for that entity has a strictly smaller score, and no assessment for it has a
greater one (only a strictly greater score replaces the running maximum). -/
theorem first_max_assessment_kept (rows : List Row) (e : Row) (h : e ∈ aggregate rows) :
    (∀ x ∈ rowsFor rows e.company, x.score ≤ e.score) ∧
      ∃ l₁ l₂, rowsFor rows e.company = l₁ ++ e :: l₂ ∧ ∀ x ∈ l₁, x.score < e.score := by
  refine ⟨?_, (mem_aggregate h).2.2⟩
  intro x hx
  exact (mem_aggregate h).2.1 x (mem_rowsFor.mp hx).1 (mem_rowsFor.mp hx).2

/-- Witness for C7: with two equal-scoring assessments for the same entity,
the first one (and its evidence) is the leaderboard entry. -/
theorem first_max_assessment_kept_witness :
    rowTieFirst ∈ aggregate tieRows ∧
      ((∀ x ∈ rowsFor tieRows rowTieFirst.company, x.score ≤ rowTieFirst.score) ∧
        ∃ l₁ l₂, rowsFor tieRows rowTieFirst.company = l₁ ++ rowTieFirst :: l₂ ∧
          ∀ x ∈ l₁, x.score < rowTieFirst.score) := by
  have hm : rowTieFirst ∈ aggregate tieRows := by
    rw [aggregate_tieRows]
    exact List.mem_singleton.mpr rfl
  exact ⟨hm, first_max_assessment_kept tieRows rowTieFirst hm⟩

/-- C8: the aggregation is idempotent — aggregating an already aggregated
leaderboard returns it unchanged. -/
theorem aggregate_idempotent (rows : List Row) :
    aggregate (aggregate rows) = aggregate rows := by
  have hnd := aggregate_company_nodup rows
  have hded : ((aggregate rows).map Row.company).dedup = (aggregate rows).map Row.company :=
    List.dedup_eq_self.mpr hnd
  show List.insertionSort byDescScore
      ((((aggregate rows).map Row.company).dedup).filterMap (pickBest (aggregate rows)))
    = aggregate rows
  rw [hded, filterMap_pickBest_self _ hnd]
  exact (aggregate_sorted rows).insertionSort_eq

/-- C9: when the classifier result carries no `Negative` label, the sentiment
component defaults to 0 and the blended score is `0.4 * keyword_component`;
the document still scores (the companies component is returned). -/
theorem missing_negative_label_defaults (nlp : String → NlpDoc)
    (sa : String → List (String × ℚ)) (text : String)
    (hr : riskySentences nlp text ≠ [])
    (hn : ∀ p ∈ sa (joinSpace (riskySentences nlp text)), p.1 ≠ "Negative") :
    (analyze_article nlp sa text).1.isSome = true ∧
      (analyze_article nlp sa text).2.2
        = 4/10 * min (((riskySentences nlp text).length : ℚ) / 5) 1 := by
  have hneg : negativeScore (sa (joinSpace (riskySentences nlp text))) = 0 := by
    simp only [negativeScore]
    rw [List.find?_eq_none.mpr]
    · rfl
    · intro p hp
      simp only [decide_eq_true_eq]
      exact hn p hp
  rw [analyze_article_of_risky hr]
  refine ⟨rfl, ?_⟩
  show riskWeightSentiment * negativeScore (sa (joinSpace (riskySentences nlp text)))
      + riskWeightKeywords * min (((riskySentences nlp text).length : ℚ) / 5) 1
    = 4/10 * min (((riskySentences nlp text).length : ℚ) / 5) 1
  rw [hneg]
  norm_num [riskWeightSentiment, riskWeightKeywords]

/-- Witness for C9: a result with only `Neutral` and `Positive` labels gives
the score `0.4 * min(2/5, 1) = 4/25`. -/
theorem missing_negative_label_defaults_witness :
    riskySentences nlpTwoRisky "t" ≠ [] ∧
      (∀ p ∈ saNoNegative (joinSpace (riskySentences nlpTwoRisky "t")), p.1 ≠ "Negative") ∧
      (analyze_article nlpTwoRisky saNoNegative "t").2.2 = 4/25 := by
  have hr : riskySentences nlpTwoRisky "t" ≠ [] := by decide
  have hn : ∀ p ∈ saNoNegative (joinSpace (riskySentences nlpTwoRisky "t")),
      p.1 ≠ "Negative" := by decide
  refine ⟨hr, hn, ?_⟩
  rw [(missing_negative_label_defaults nlpTwoRisky saNoNegative "t" hr hn).2]
  rw [show riskySentences nlpTwoRisky "t"
      = ["The lawsuit seeks damages.", "An injunction was requested."] from by decide]
  simp only [List.length_cons, List.length_nil]
  norm_num [min_def]

/-- C10: every row of the results batch, and hence every leaderboard entry,
has a risk score strictly greater than 0.1 — the threshold is a fixed filter
applied inside the analysis pipeline before aggregation. -/
theorem leaderboard_above_threshold (nlp : String → NlpDoc)
    (sa : String → List (String × ℚ)) (articles : List Article) :
    (∀ r ∈ articles.flatMap (processArticle nlp sa), 1/10 < r.score) ∧
      ∀ e ∈ analyzeNews nlp sa articles, 1/10 < e.score := by
  constructor
  · intro r hr
    obtain ⟨a, ha, hpa⟩ := List.mem_flatMap.mp hr
    exact mem_processArticle_score hpa
  · intro e he
    obtain ⟨a, ha, hpa⟩ := List.mem_flatMap.mp (mem_analyzeNews he)
    exact mem_processArticle_score hpa

/-- Witness for C10: a concrete run producing the leaderboard `[riskyRow]`,
whose single entry scores 31/50 > 1/10. -/
theorem leaderboard_above_threshold_witness :
    riskyRow ∈ analyzeNews nlpOrgRisky saStrongNegative [riskyArticle] ∧
      1/10 < riskyRow.score := by
  have hm : riskyRow ∈ analyzeNews nlpOrgRisky saStrongNegative [riskyArticle] := by
    rw [analyzeNews_riskyArticle]
    exact List.mem_singleton.mpr rfl
  exact ⟨hm, (leaderboard_above_threshold nlpOrgRisky saStrongNegative
    [riskyArticle]).2 riskyRow hm⟩
